import Mathlib

/-!
A verification development for the concurrency / resource-coordination layer
of the video-monitoring dispatch service.

The definitions below are a shallow embedding of the Python source:

* `backend/redis_coordinator.py` — `RedisCoordinator.distributed_lock`
  (the SET-NX-EX acquisition loop and the Lua check-and-delete release),
  modelled over an explicit key-value store with per-entry expiry times.
* `backend/security_utils.py` — `validate_rtsp_url`.
* `backend/streaming_server.py` — `StreamManager.start_stream` /
  `stop_stream` (process table of one worker), and the viewer
  reference-counting functions `add_stream_viewer`,
  `remove_stream_viewer`, `get_stream_viewer_count`, `should_stop_stream`.
* `backend/main.py` — `assign_event_to_operator` (round-robin dispatch
  under the distributed lock).

Time is an explicit `Nat` parameter (seconds); Redis lazy expiry is
modelled by comparing the stored expiry against the current time at each
operation.  Store operations that can raise network errors are modelled in
an `Except` monad with an explicit failure schedule (`failAt`): the n-th
primitive operation against the store raises iff `failAt = some n`.
-/

/-! ## Distributed lock store (redis_coordinator.py)

`LockStore` maps a lock key to `some (token, expiresAt)` when the key is
physically present.  Redis lazy expiry: an entry counts as existing for
SET NX / GET only while `now < expiresAt`. -/

def LockStore : Type := String → Option (String × Nat)

/-- `redis.set(lock_key, lock_value, ex=timeout, nx=True)`:
atomic set-if-absent with expiry.  Succeeds iff the key is absent or its
previous entry has expired; on success stores the caller's token with
expiry `now + ttl`. -/
def redisSetNxEx (s : LockStore) (key tok : String) (ttl now : Nat) :
    Bool × LockStore :=
  let existsNow : Bool :=
    match s key with
    | some (_, expiresAt) => decide (now < expiresAt)
    | none => false
  if existsNow then (false, s)
  else (true, fun k => if k = key then some (tok, now + ttl) else s k)

/-- The acquisition loop of `RedisCoordinator.distributed_lock`: retry the
SET NX EX at fixed short intervals until it succeeds or the blocking
timeout is exceeded.  `times` is the list of instants at which attempts
are made (the loop body runs once per element; an empty remainder is the
`elapsed >= blocking_timeout` exit, which yields `False`). -/
def lockLoopAttempts (s : LockStore) (key tok : String) (ttl : Nat) :
    List Nat → Bool × LockStore
  | [] => (false, s)
  | t :: ts =>
    match redisSetNxEx s key tok ttl t with
    | (true, s2) => (true, s2)
    | (false, s2) => lockLoopAttempts s2 key tok ttl ts

/-- The Lua release script run on scope exit:
`if get(KEYS[1]) == ARGV[1] then del(KEYS[1])`.  `GET` on an expired
entry returns nil, so an expired key is never deleted either. -/
def releaseScript (s : LockStore) (key tok : String) (now : Nat) :
    LockStore :=
  match s key with
  | some (t, expiresAt) =>
    if now < expiresAt ∧ t = tok then
      fun k => if k = key then none else s k
    else s
  | none => s

/-! ## Degraded-mode acquisition (redis_coordinator.py lines 38-73)

For the graceful-degradation claims the redis client is abstracted to the
outcome of each `set` call: the i-th attempt either raises (`Except.error`)
or returns the SETNX boolean.  `none` models `self.redis` being unset.
The code's `try` block has no `except` clause (only `finally`), so an
error from `redis.set` propagates to the caller of the context manager. -/

def dlockAcquire (redis : Option (Nat → Except Unit Bool)) (maxAttempts : Nat) :
    Except Unit Bool :=
  match redis with
  | none => Except.ok false
  | some setnx => go setnx 0 maxAttempts
where
  go (setnx : Nat → Except Unit Bool) (i fuel : Nat) : Except Unit Bool :=
    match fuel with
    | 0 => Except.ok false
    | fuel + 1 =>
      match setnx i with
      | Except.error e => Except.error e
      | Except.ok true => Except.ok true
      | Except.ok false => go setnx (i + 1) fuel

/-- Claim C8 as stated: whenever the store is unreachable (every `set`
call raises), acquisition reports `acquired = false` and no exception
propagates to the caller. -/
def ClaimC8 : Prop :=
  ∀ (setnx : Nat → Except Unit Bool) (maxAttempts : Nat),
    (∀ i, setnx i = Except.error ()) →
    dlockAcquire (some setnx) maxAttempts = Except.ok false

/-! ## Round-robin dispatch (main.py, assign_event_to_operator)

The relational rows are modelled directly; `claims` holds the currently
unexpired `AccountClaim` rows (no claim is resolved or expires inside the
modelled window, matching the claim's premise).  The Redis round-robin
counter is part of the state (`redis.incr` returns the post-increment
value). -/

structure DUser where
  id : Nat
  is_receiving : Bool
  is_active : Bool
  role_type : String
deriving DecidableEq, Repr

structure DispatchState where
  counter : Nat
  claims : List (Nat × Nat)
  users : List DUser
deriving DecidableEq, Repr

/-- `receiving_users` query: active, receiving, and not the escalate role
(the `assign_event_to_operator` variant). -/
def receivingUsers (s : DispatchState) : List DUser :=
  s.users.filter fun u =>
    u.is_receiving && u.is_active && u.role_type != "user_escalate"

/-- `busy_user_ids`: users holding an unexpired claim. -/
def busyIds (s : DispatchState) : List Nat := s.claims.map (·.2)

/-- `available_users`: receiving and not busy. -/
def availableUsers (s : DispatchState) : List DUser :=
  (receivingUsers s).filter fun u => !(busyIds s).contains u.id

/-- One `assign_event_to_operator(account_id)` call with the distributed
lock already acquired: re-check the existing claim, compute the available
users, `incr` the shared counter, pick `available[counter % len]`, and
insert the new `AccountClaim` row.  (The Redis claim mirror and the
broadcast are external effects with no bearing on selection.) -/
def assignEvent (account : Nat) (s : DispatchState) :
    Option Nat × DispatchState :=
  match s.claims.find? (fun c => c.1 = account) with
  | some c => (some c.2, s)
  | none =>
    if (receivingUsers s).isEmpty then (none, s)
    else
      match (receivingUsers s).filter (fun u => !(busyIds s).contains u.id) with
      | [] => (none, s)
      | u0 :: rest =>
        let counter := s.counter + 1
        let selected :=
          (u0 :: rest).get ⟨counter % (u0 :: rest).length, Nat.mod_lt _ (Nat.succ_pos _)⟩
        (some selected.id,
         { s with counter := counter,
                  claims := s.claims ++ [(account, selected.id)] })

/-- `M` sequential `assign()` calls (one per incoming account), returning
the list of selections and the final state. -/
def runAssigns : List Nat → DispatchState → List (Option Nat) × DispatchState
  | [], s => ([], s)
  | a :: as_, s =>
    let (r, s2) := assignEvent a s
    let (rs, s3) := runAssigns as_ s2
    (r :: rs, s3)

/-- How many of the `assign` calls selected user `uid`. -/
def selCount (uid : Nat) (sels : List (Option Nat)) : Nat :=
  (sels.filter (· = some uid)).length

/-- `account` has no claim row in `s`. -/
def freshAccount (account : Nat) (s : DispatchState) : Prop :=
  s.claims.find? (fun c => c.1 = account) = none

/-- Claim C5 as stated: with `N` eligible operators and `M` sequential
`assign()` calls (for fresh, pairwise-distinct accounts, no claim resolved
in between), every eligible operator is selected `⌊M/N⌋` or `⌈M/N⌉`
times. -/
def ClaimC5 : Prop :=
  ∀ (s : DispatchState) (accounts : List Nat),
    accounts.Nodup →
    (∀ a ∈ accounts, freshAccount a s) →
    (availableUsers s).length > 0 →
    ∀ u ∈ availableUsers s,
      selCount u.id (runAssigns accounts s).1 = accounts.length / (availableUsers s).length ∨
      selCount u.id (runAssigns accounts s).1 =
        (accounts.length + (availableUsers s).length - 1) / (availableUsers s).length

/-! ### Helper lemmas for the amended round-robin claim -/

theorem assignEvent_claims (account : Nat) (s : DispatchState) :
    (assignEvent account s).2.claims = s.claims ∨
    ∃ uid, (assignEvent account s).1 = some uid ∧
      (assignEvent account s).2.claims = s.claims ++ [(account, uid)] := by
  unfold assignEvent
  split
  · left; rfl
  · split
    · left; rfl
    · split
      · left; rfl
      · right; exact ⟨_, rfl, rfl⟩

theorem assignEvent_users (account : Nat) (s : DispatchState) :
    (assignEvent account s).2.users = s.users := by
  unfold assignEvent
  split
  · rfl
  · split
    · rfl
    · split
      · rfl
      · rfl

/-- A selection made for a fresh account comes from the available set. -/
theorem assignEvent_fresh_sel (account uid : Nat) (s : DispatchState)
    (hfresh : freshAccount account s)
    (hsel : (assignEvent account s).1 = some uid) :
    uid ∈ (availableUsers s).map (·.id) := by
  have hf : s.claims.find? (fun c => c.1 = account) = none := hfresh
  unfold assignEvent at hsel
  simp only [hf] at hsel
  revert hsel
  split
  · intro hsel; exact absurd hsel (by simp)
  · split
    · intro hsel; exact absurd hsel (by simp)
    · rename_i u0 rest heq
      intro hsel
      have hmem : (u0 :: rest).get
          ⟨(s.counter + 1) % (u0 :: rest).length, Nat.mod_lt _ (Nat.succ_pos _)⟩ ∈
          u0 :: rest := List.get_mem _ _ _
      have hav : availableUsers s = u0 :: rest := heq
      rw [Option.some_inj] at hsel
      rw [hav]
      exact List.mem_map.mpr ⟨_, hmem, hsel⟩

/-! ## RTSP URL validation (security_utils.py, validate_rtsp_url)

`ParsedUrl` is the result of `urllib.parse.urlparse` (the components the
validator reads); the validator itself operates on the components and
rebuilds the returned URL from them, exactly as the source does. -/

structure ParsedUrl where
  scheme : String
  netloc : String
  path : String
  query : String
deriving DecidableEq, Repr

/-- The shell metacharacters rejected by `validate_rtsp_url`
(`; | backtick $ ( ) < > newline carriage-return`). -/
def dangerousChars : List Char :=
  [';', '|', Char.ofNat 96, '$', '(', ')', '<', '>', Char.ofNat 10, Char.ofNat 13]

def hasChar (s : String) (c : Char) : Bool := s.data.contains c

/-- `validate_rtsp_url`: checks the protocol, requires a host, rejects the
dangerous characters in `scheme://netloc/path` and (separately) in the
query string, and returns the URL rebuilt from the validated components
(dropping params/fragment). `Except.error` models the raised
`ValueError`. -/
def urlBase (u : ParsedUrl) : String :=
  u.scheme ++ "://" ++ u.netloc ++ u.path

def validate_rtsp_url (u : ParsedUrl) : Except String String :=
  if ¬ (u.scheme ∈ ["rtsp", "rtmp", "http", "https"]) then
    Except.error "Invalid protocol"
  else if u.netloc = "" then
    Except.error "Invalid URL: missing host/netloc"
  else
    if dangerousChars.any (fun c => hasChar (urlBase u) c) then
      Except.error "Invalid character in URL"
    else if u.query ≠ "" then
      if dangerousChars.any (fun c => hasChar u.query c) then
        Except.error "Invalid character in URL query string"
      else Except.ok (urlBase u ++ "?" ++ u.query)
    else Except.ok (urlBase u)

/-! ## Stream process supervisor (streaming_server.py, StreamManager)

One worker's process table.  `procs` is the worker's view of the encoder
OS processes it spawned (pid and whether the process is still running);
`active_streams` / `stream_last_update` are the dictionaries of
`StreamManager`.  `survive` models whether the newly spawned FFmpeg
process is still alive at the 500 ms immediate-failure poll.  Filesystem
cleanup, the psutil orphan sweep and the Redis registration are external
effects with no bearing on the supervised table. -/

structure SProc where
  pid : Nat
  alive : Bool
deriving DecidableEq, Repr

structure Worker where
  procs : List SProc
  active_streams : List (Nat × Nat)
  stream_last_update : List (Nat × Nat)
  nextPid : Nat
deriving DecidableEq, Repr

def alistLookup {α : Type} (l : List (Nat × α)) (k : Nat) : Option α :=
  (l.find? (fun e => e.1 = k)).map (·.2)

def alistErase {α : Type} (l : List (Nat × α)) (k : Nat) : List (Nat × α) :=
  l.filter (fun e => !(decide (e.1 = k)))

/-- `process.terminate()` / `kill()`: the process with that pid stops. -/
def terminatePid (procs : List SProc) (pid : Nat) : List SProc :=
  procs.map (fun p => { p with alive := if p.pid = pid then false else p.alive })

/-- Whether the worker sees an OS process with this pid still running
(`process.poll() is None`). -/
def procAlive (w : Worker) (pid : Nat) : Bool :=
  ((w.procs.find? (fun p => p.pid = pid)).map (·.alive)).getD false

/-- `StreamManager.stop_stream`: if a handle exists, terminate the process
(graceful wait then force-kill both end with it stopped), drop the handle
and the last-update entry, and return True; otherwise return False. -/
def stop_stream (w : Worker) (camera : Nat) : Bool × Worker :=
  match alistLookup w.active_streams camera with
  | some pid =>
    (true, { w with procs := terminatePid w.procs pid,
                    active_streams := alistErase w.active_streams camera,
                    stream_last_update := alistErase w.stream_last_update camera })
  | none => (false, w)

/-- `StreamManager.start_stream`: validate the URL (invalid → return False
before touching anything), stop any existing stream for the camera, spawn
a fresh FFmpeg process, record the handle, then poll after 500 ms: if the
process already exited, drop the handle and return False, else return
True. -/
def start_stream (w : Worker) (camera : Nat) (url : ParsedUrl)
    (survive : Bool) (now : Nat) : Bool × Worker :=
  match validate_rtsp_url url with
  | Except.error _ => (false, w)
  | Except.ok _ =>
    let w1 := (stop_stream w camera).2
    let pid := w1.nextPid
    let w2 := { w1 with
      procs := w1.procs ++ [⟨pid, survive⟩],
      nextPid := pid + 1,
      active_streams := w1.active_streams ++ [(camera, pid)],
      stream_last_update := w1.stream_last_update ++ [(camera, now)] }
    if survive then (true, w2)
    else (false, { w2 with
      active_streams := alistErase w2.active_streams camera,
      stream_last_update := alistErase w2.stream_last_update camera })

/-- Claim C1 as stated: if a live handle exists for the camera, `start`
returns success without restarting — the existing encoder process is left
running and no second process is spawned. -/
def ClaimC1 : Prop :=
  ∀ (w : Worker) (camera : Nat) (url : ParsedUrl) (survive : Bool)
    (now pid : Nat),
    alistLookup w.active_streams camera = some pid →
    procAlive w pid = true →
    (start_stream w camera url survive now).1 = true ∧
    (start_stream w camera url survive now).2.procs = w.procs ∧
    procAlive (start_stream w camera url survive now).2 pid = true

/-- Concrete worker with a live handle for camera 1 (encoder pid 7). -/
def workerC1 : Worker :=
  { procs := [⟨7, true⟩], active_streams := [(1, 7)],
    stream_last_update := [(1, 0)], nextPid := 8 }

/-- A well-formed RTSP URL. -/
def urlOk : ParsedUrl := ⟨"rtsp", "cam.example.com", "/stream1", ""⟩

/-! ## Viewer reference counting (streaming_server.py, module functions)

The shared store state per camera: the `stream_viewers:{camera_id}` hash
(viewer_id → last-seen timestamp, plus the TTL set on the hash) and the
`stream_stop_at:{camera_id}` key (value and TTL as written by `setex`).
`RClient` adds the failure schedule: the n-th primitive store operation
performed through the client raises iff `failAt = some n` (`opCount`
numbers the operations). -/

structure CamStore where
  viewers : List (String × Nat)
  viewersTtl : Option Nat
  stopAt : Option (Nat × Nat)
deriving DecidableEq, Repr

def emptyCam : CamStore := ⟨[], none, none⟩

structure RClient where
  store : Nat → CamStore
  failAt : Option Nat
  opCount : Nat

/-- One primitive store round-trip: report whether this operation raises
and advance the operation counter. -/
def rstep (cl : RClient) : Bool × RClient :=
  (decide (cl.failAt = some cl.opCount), { cl with opCount := cl.opCount + 1 })

def updateCam (cl : RClient) (camera : Nat) (f : CamStore → CamStore) : RClient :=
  { cl with store := fun c => if c = camera then f (cl.store camera) else cl.store c }

/-- `redis.hset(stream_viewers_key, viewer_id, timestamp)`. -/
def hsetViewer (cl : RClient) (camera : Nat) (viewer : String) (ts : Nat) :
    Except RClient RClient :=
  let (fail, cl) := rstep cl
  if fail then Except.error cl
  else Except.ok (updateCam cl camera (fun cs =>
    { cs with viewers := cs.viewers.filter (fun e => e.1 ≠ viewer) ++ [(viewer, ts)] }))

/-- `redis.expire(stream_viewers_key, ttl)`. -/
def expireViewers (cl : RClient) (camera ttl : Nat) : Except RClient RClient :=
  let (fail, cl) := rstep cl
  if fail then Except.error cl
  else Except.ok (updateCam cl camera (fun cs => { cs with viewersTtl := some ttl }))

/-- `redis.hlen(stream_viewers_key)`. -/
def hlenViewers (cl : RClient) (camera : Nat) : Except RClient (Nat × RClient) :=
  let (fail, cl) := rstep cl
  if fail then Except.error cl
  else Except.ok ((cl.store camera).viewers.length, cl)

/-- `redis.hdel(stream_viewers_key, viewer_id)`. -/
def hdelViewer (cl : RClient) (camera : Nat) (viewer : String) :
    Except RClient RClient :=
  let (fail, cl) := rstep cl
  if fail then Except.error cl
  else Except.ok (updateCam cl camera (fun cs =>
    { cs with viewers := cs.viewers.filter (fun e => e.1 ≠ viewer) }))

/-- `redis.setex(stream_stop_at_key, ttl, stop_time)`. -/
def setexStopAt (cl : RClient) (camera ttl value : Nat) : Except RClient RClient :=
  let (fail, cl) := rstep cl
  if fail then Except.error cl
  else Except.ok (updateCam cl camera (fun cs => { cs with stopAt := some (value, ttl) }))

/-- `redis.get(stream_stop_at_key)`. -/
def getStopAt (cl : RClient) (camera : Nat) :
    Except RClient (Option Nat × RClient) :=
  let (fail, cl) := rstep cl
  if fail then Except.error cl
  else Except.ok ((cl.store camera).stopAt.map (·.1), cl)

/-- `redis.delete(stream_stop_at_key)`. -/
def delStopAt (cl : RClient) (camera : Nat) : Except RClient RClient :=
  let (fail, cl) := rstep cl
  if fail then Except.error cl
  else Except.ok (updateCam cl camera (fun cs => { cs with stopAt := none }))

/-- `add_stream_viewer`: no client → warn and return 1; otherwise hset the
viewer, refresh the hash TTL (300 s), return the hash length; any raise is
caught and 1 returned. -/
def add_stream_viewer (redis : Option RClient) (camera : Nat) (viewer : String)
    (now : Nat) : Nat × Option RClient :=
  match redis with
  | none => (1, none)
  | some cl =>
    match (do
      let cl ← hsetViewer cl camera viewer now
      let cl ← expireViewers cl camera 300
      hlenViewers cl camera : Except RClient (Nat × RClient)) with
    | Except.ok (n, cl) => (n, some cl)
    | Except.error cl => (1, some cl)

/-- `remove_stream_viewer`: no client → 0; otherwise hdel the viewer, read
the remaining count, and if it is 0 set the stop deadline
(`now + 30`, TTL 60); any raise is caught and 0 returned. -/
def remove_stream_viewer (redis : Option RClient) (camera : Nat) (viewer : String)
    (now : Nat) : Nat × Option RClient :=
  match redis with
  | none => (0, none)
  | some cl =>
    match (do
      let cl ← hdelViewer cl camera viewer
      let (n, cl) ← hlenViewers cl camera
      if n = 0 then
        let cl ← setexStopAt cl camera 60 (now + 30)
        pure (n, cl)
      else
        pure (n, cl) : Except RClient (Nat × RClient)) with
    | Except.ok (n, cl) => (n, some cl)
    | Except.error cl => (0, some cl)

/-- The body of `get_stream_viewer_count` when a client is present
(its `except` clause returns 0). -/
def getCountC (cl : RClient) (camera : Nat) : Nat × RClient :=
  match hlenViewers cl camera with
  | Except.ok (n, cl) => (n, cl)
  | Except.error cl => (0, cl)

/-- `get_stream_viewer_count`: no client → 0; raise → 0. -/
def get_stream_viewer_count (redis : Option RClient) (camera : Nat) :
    Nat × Option RClient :=
  match redis with
  | none => (0, none)
  | some cl =>
    let (n, cl) := getCountC cl camera
    (n, some cl)

/-- The `try` body of `should_stop_stream` (a raise escaping it is the
`Except.error` case, handled by the function's `except` clause). Note the
viewer-count read cannot raise out of here: `get_stream_viewer_count`
swallows its own store errors and reports 0. -/
def should_stop_core (cl : RClient) (camera now : Nat) :
    Except RClient (Bool × RClient) := do
  let (count, cl) := getCountC cl camera
  if count > 0 then
    let cl ← delStopAt cl camera
    pure (false, cl)
  else
    let (v, cl) ← getStopAt cl camera
    match v with
    | none =>
      let cl ← setexStopAt cl camera 60 (now + 30)
      pure (false, cl)
    | some stopTime =>
      if stopTime ≤ now then
        let cl ← delStopAt cl camera
        pure (true, cl)
      else
        pure (false, cl)

/-- `should_stop_stream`: no client → False; any raise reaching its own
handler → False. -/
def should_stop_stream (redis : Option RClient) (camera now : Nat) :
    Bool × Option RClient :=
  match redis with
  | none => (false, none)
  | some cl =>
    match should_stop_core cl camera now with
    | Except.ok (b, cl) => (b, some cl)
    | Except.error cl => (false, some cl)

/-- The stop decision of one `stream_monitor_task` iteration for one
camera: read the viewer count, ask `should_stop_stream`, stop only if
`should_stop and viewer_count == 0`. -/
def monitorStopsStream (redis : Option RClient) (camera now : Nat) : Bool :=
  let (count, r2) := get_stream_viewer_count redis camera
  let (stop, _) := should_stop_stream r2 camera now
  stop && decide (count = 0)

/-- `Except.isOk` as a plain boolean. -/
def exceptIsOk {α β : Type} : Except α β → Bool
  | Except.ok _ => true
  | Except.error _ => false

/-- A store operation raised between the states `cl` (entry) and `cl2`
(exit): the failure schedule hit one of the operation indices that were
executed. -/
def raisedIn (cl cl2 : RClient) : Prop :=
  ∃ k, cl.failAt = some k ∧ cl.opCount ≤ k ∧ k < cl2.opCount

/-- Claim C7 as stated: `addViewer` registers/refreshes the viewer with a
TTL, clears any pending stop deadline as part of the call, and returns the
current viewer count. -/
def ClaimC7 : Prop :=
  ∀ (cl : RClient) (camera : Nat) (viewer : String) (now : Nat),
    cl.failAt = none →
    ∃ cl2, (add_stream_viewer (some cl) camera viewer now).2 = some cl2 ∧
      (cl2.store camera).viewers =
        (cl.store camera).viewers.filter (fun e => e.1 ≠ viewer) ++ [(viewer, now)] ∧
      (cl2.store camera).viewersTtl = some 300 ∧
      (add_stream_viewer (some cl) camera viewer now).1 =
        (cl2.store camera).viewers.length ∧
      (cl2.store camera).stopAt = none

/-- Claim C9 as stated: with the store unavailable the counts fall back to
in-memory per-worker tracking — two `addViewer` calls for distinct viewers
report a count of 2. -/
def ClaimC9 : Prop :=
  ∀ (camera : Nat) (v1 v2 : String) (now1 now2 : Nat), v1 ≠ v2 →
    (add_stream_viewer none camera v1 now1).1 = 1 ∧
    (add_stream_viewer
      (add_stream_viewer none camera v1 now1).2 camera v2 now2).1 = 2

/-- Claim C10 as stated: if the store client is absent, or any store
operation during the `shouldStop` call raises, `shouldStop` returns
false. -/
def ClaimC10 : Prop :=
  (∀ camera now, (should_stop_stream none camera now).1 = false) ∧
  (∀ (cl : RClient) (camera now : Nat) (cl2 : RClient),
    (should_stop_stream (some cl) camera now).2 = some cl2 →
    raisedIn cl cl2 →
    (should_stop_stream (some cl) camera now).1 = false)

/-- Store contents for the C10 counterexample: camera 1 has one registered
viewer and a stop deadline that has already elapsed. -/
def storeC10 : Nat → CamStore :=
  fun c => if c = 1 then ⟨[("viewer-a", 40)], some 300, some (50, 60)⟩ else emptyCam

/-- Client for the C10 counterexample: exactly the first store operation
(the `hlen` viewer-count read) raises; later operations succeed. -/
def clientC10 : RClient := { store := storeC10, failAt := some 0, opCount := 0 }

/-- Client with an elapsed deadline for camera 1 and no failures, for the
C7 counterexample. -/
def clientC7 : RClient :=
  { store := fun c => if c = 1 then ⟨[], none, some (50, 60)⟩ else emptyCam,
    failAt := none, opCount := 0 }

/-- Client whose second store operation raises, over an empty store:
`should_stop_core` raises at the `get` of the stop key. -/
def clientCoreErr : RClient :=
  { store := fun _ => emptyCam, failAt := some 1, opCount := 0 }

/-- No-failure client over an empty store. -/
def clientEmpty : RClient :=
  { store := fun _ => emptyCam, failAt := none, opCount := 0 }

/-- No-failure client with one viewer and a pending deadline on camera 1. -/
def clientViewerDeadline : RClient :=
  { store := fun c => if c = 1 then ⟨[("viewer-a", 40)], some 300, some (50, 60)⟩ else emptyCam,
    failAt := none, opCount := 0 }

/-- Empty lock store. -/
def emptyLock : LockStore := fun _ => none

/-- Lock store where "assign_event:42" is held by task-A until time 50. -/
def lockHeld : LockStore :=
  fun k => if k = "assign_event:42" then some ("task-A", 50) else none

/-- No-failure client with no viewers and an elapsed stop deadline on
camera 1. -/
def clientElapsed : RClient :=
  { store := fun c => if c = 1 then ⟨[], none, some (50, 60)⟩ else emptyCam,
    failAt := none, opCount := 0 }

/-- Dispatch state for the C5 counterexample: a single receiving operator,
fresh counter, no claims. -/
def dispatchS0 : DispatchState :=
  { counter := 0, claims := [], users := [⟨1, true, true, "user_standard"⟩] }

/-- Full case analysis of one `assign` call on a fresh account. -/
theorem assignEvent_cases (account : Nat) (s : DispatchState)
    (hfresh : freshAccount account s) :
    assignEvent account s = (none, s) ∨
    (∃ uid, uid ∈ (availableUsers s).map (·.id) ∧
      assignEvent account s =
        (some uid,
         { s with counter := s.counter + 1,
                  claims := s.claims ++ [(account, uid)] })) := by
  have hf : s.claims.find? (fun c => c.1 = account) = none := hfresh
  unfold assignEvent
  simp only [hf]
  split
  · left; rfl
  · split
    · left; rfl
    · rename_i u0 rest heq
      right
      have hav : availableUsers s = u0 :: rest := heq
      refine ⟨_, ?_, rfl⟩
      rw [hav]
      exact List.mem_map.mpr ⟨_, List.get_mem _ _ _, rfl⟩

/-- A selected user was not busy: membership in the available set excludes
holders of an unexpired claim. -/
theorem available_not_busy (s : DispatchState) (uid : Nat)
    (h : uid ∈ (availableUsers s).map (·.id)) : uid ∉ busyIds s := by
  rcases List.mem_map.mp h with ⟨u, hu, rfl⟩
  unfold availableUsers at hu
  rcases List.mem_filter.mp hu with ⟨-, hbusy⟩
  simp only [Bool.not_eq_true'] at hbusy
  intro hmem
  have : (busyIds s).contains u.id = true := List.elem_iff.mpr hmem
  rw [hbusy] at this
  exact Bool.false_ne_true this

theorem find?_append_none {α} (p : α → Bool) {l1 l2 : List α}
    (h1 : l1.find? p = none) (h2 : l2.find? p = none) :
    (l1 ++ l2).find? p = none := by
  rw [List.find?_eq_none] at h1 h2 ⊢
  intro x hx
  rcases List.mem_append.mp hx with h | h
  · exact h1 x h
  · exact h2 x h

/-- Accounts stay fresh across a claim insertion for a different account. -/
theorem fresh_after_claim (a account uid : Nat) (s : DispatchState)
    (hfresh : freshAccount a s) (hne : a ≠ account) :
    freshAccount a { s with counter := s.counter + 1,
                            claims := s.claims ++ [(account, uid)] } := by
  unfold freshAccount at *
  exact find?_append_none _ hfresh (by simp [List.find?, hne.symm])

theorem runAssigns_cons (a : Nat) (rest : List Nat) (s : DispatchState) :
    runAssigns (a :: rest) s =
      ((assignEvent a s).1 :: (runAssigns rest (assignEvent a s).2).1,
       (runAssigns rest (assignEvent a s).2).2) := rfl

theorem selCount_cons_none (uid : Nat) (l : List (Option Nat)) :
    selCount uid (none :: l) = selCount uid l := by
  simp [selCount, List.filter_cons]

theorem selCount_cons_some_ne (uid v : Nat) (l : List (Option Nat)) (h : v ≠ uid) :
    selCount uid (some v :: l) = selCount uid l := by
  simp [selCount, List.filter_cons, h]

theorem selCount_cons_some_eq (uid : Nat) (l : List (Option Nat)) :
    selCount uid (some uid :: l) = selCount uid l + 1 := by
  simp [selCount, List.filter_cons]

/-- A user holding an unexpired claim is never selected by any later
`assign` call of the run (no claim expires or is resolved in between). -/
theorem busy_never_selected (accounts : List Nat) :
    ∀ (s : DispatchState) (uid : Nat), uid ∈ busyIds s →
    accounts.Nodup → (∀ a ∈ accounts, freshAccount a s) →
    selCount uid (runAssigns accounts s).1 = 0 := by
  induction accounts with
  | nil => intro s uid _ _ _; rfl
  | cons a rest ih =>
    intro s uid hbusy hnodup hfresh
    have hfa : freshAccount a s := hfresh a (List.mem_cons_self a rest)
    rw [runAssigns_cons]
    rcases assignEvent_cases a s hfa with hpair | ⟨uid2, hmem, hpair⟩
    · rw [hpair]
      rw [selCount_cons_none]
      exact ih s uid hbusy (List.Nodup.of_cons hnodup)
        (fun a2 ha2 => hfresh a2 (List.mem_cons_of_mem a ha2))
    · have hne : uid2 ≠ uid := fun he => available_not_busy s uid2 hmem (he ▸ hbusy)
      rw [hpair]
      rw [selCount_cons_some_ne _ _ _ hne]
      have hbusy2 : uid ∈ busyIds { s with counter := s.counter + 1,
                                           claims := s.claims ++ [(a, uid2)] } := by
        unfold busyIds at *
        simp only [List.map_append]
        exact List.mem_append.mpr (Or.inl hbusy)
      have hfresh2 : ∀ a2 ∈ rest, freshAccount a2
          { s with counter := s.counter + 1, claims := s.claims ++ [(a, uid2)] } := by
        intro a2 ha2
        exact fresh_after_claim a2 a uid2 s (hfresh a2 (List.mem_cons_of_mem a ha2))
          (fun he => (List.nodup_cons.mp hnodup).1 (he ▸ ha2))
      exact ih _ uid hbusy2 (List.Nodup.of_cons hnodup) hfresh2

/-- Across any sequence of `assign` calls on fresh, distinct accounts with
no claim resolved in between, each operator is selected at most once:
the first selection inserts a claim row that removes the operator from
every later eligible set. -/
theorem selCount_le_one (accounts : List Nat) :
    ∀ (s : DispatchState) (uid : Nat),
    accounts.Nodup → (∀ a ∈ accounts, freshAccount a s) →
    selCount uid (runAssigns accounts s).1 ≤ 1 := by
  induction accounts with
  | nil => intro s uid _ _; exact Nat.zero_le 1
  | cons a rest ih =>
    intro s uid hnodup hfresh
    have hfa : freshAccount a s := hfresh a (List.mem_cons_self a rest)
    rw [runAssigns_cons]
    rcases assignEvent_cases a s hfa with hpair | ⟨uid2, hmem, hpair⟩
    · rw [hpair, selCount_cons_none]
      exact ih s uid (List.Nodup.of_cons hnodup)
        (fun a2 ha2 => hfresh a2 (List.mem_cons_of_mem a ha2))
    · rw [hpair]
      have hfresh2 : ∀ a2 ∈ rest, freshAccount a2
          { s with counter := s.counter + 1, claims := s.claims ++ [(a, uid2)] } := by
        intro a2 ha2
        exact fresh_after_claim a2 a uid2 s (hfresh a2 (List.mem_cons_of_mem a ha2))
          (fun he => (List.nodup_cons.mp hnodup).1 (he ▸ ha2))
      by_cases he : uid2 = uid
      · subst he
        rw [selCount_cons_some_eq]
        have hbusy2 : uid2 ∈ busyIds { s with counter := s.counter + 1,
                                              claims := s.claims ++ [(a, uid2)] } := by
          unfold busyIds
          simp
        rw [busy_never_selected rest _ uid2 hbusy2 (List.Nodup.of_cons hnodup) hfresh2]
      · rw [selCount_cons_some_ne _ _ _ he]
        exact ih _ uid (List.Nodup.of_cons hnodup) hfresh2

/-! ## Lock theorems (C2, C3, C8) -/

/-- While a key is held and unexpired, every SET NX EX attempt of another
caller fails and leaves the store unchanged. -/
theorem lockLoop_fails_while_held (key t2 : String) (ttl : Nat) (s : LockStore)
    (tok : String) (e : Nat) (hk : s key = some (tok, e)) :
    ∀ times : List Nat, (∀ t ∈ times, t < e) →
    lockLoopAttempts s key t2 ttl times = (false, s) := by
  intro times
  induction times with
  | nil => intro _; rfl
  | cons t ts ih =>
    intro hall
    have ht : t < e := hall t (List.mem_cons_self t ts)
    unfold lockLoopAttempts redisSetNxEx
    simp only [hk, decide_eq_true ht]
    exact ih (fun t2 h2 => hall t2 (List.mem_cons_of_mem t h2))

/-- C2: mutual exclusion of the distributed lock.  If one task's SET NX EX
acquisition on a key succeeded at time `now` with expiry `ttl`, then a
second task's whole acquisition loop on the same key — all of whose
attempts happen while the holder is unexpired, with no release in
between — reports `acquired = false`; so two concurrent acquisitions never
both report true.  Moreover the first acquisition can only have succeeded
because the key was absent or already expired. -/
theorem C2_lock_mutual_exclusion
    (s : LockStore) (key t1 t2 : String) (ttl now : Nat) (times : List Nat)
    (hacq : (redisSetNxEx s key t1 ttl now).1 = true)
    (hwin : ∀ t ∈ times, t < now + ttl) :
    lockLoopAttempts (redisSetNxEx s key t1 ttl now).2 key t2 ttl times
      = (false, (redisSetNxEx s key t1 ttl now).2) ∧
    (s key = none ∨ ∃ tok e, s key = some (tok, e) ∧ e ≤ now) := by
  have hex : (match s key with
      | some (_, expiresAt) => decide (now < expiresAt)
      | none => false) = false := by
    by_contra hc
    rw [Bool.not_eq_false] at hc
    unfold redisSetNxEx at hacq
    simp only [hc, if_true] at hacq
    exact Bool.false_ne_true hacq
  have hs2 : (redisSetNxEx s key t1 ttl now).2 =
      fun k => if k = key then some (t1, now + ttl) else s k := by
    unfold redisSetNxEx
    simp only [hex]
    rfl
  constructor
  · have hkey : (redisSetNxEx s key t1 ttl now).2 key = some (t1, now + ttl) := by
      rw [hs2]
      simp
    exact lockLoop_fails_while_held key t2 ttl _ t1 (now + ttl) hkey times hwin
  · cases hk : s key with
    | none => exact Or.inl rfl
    | some p =>
      right
      cases p with
      | mk tok e =>
        rw [hk] at hex
        simp only [decide_eq_false_iff_not, Nat.not_lt] at hex
        exact ⟨tok, e, rfl, hex⟩

/-- Witness for C2 at a concrete store: task-A acquires a free lock at
time 0 with a 10 s TTL; task-B's three attempts at times 1, 2, 3 all
fail. -/
theorem C2_lock_mutual_exclusion_witness :
    lockLoopAttempts (redisSetNxEx emptyLock "assign_event:42" "task-A" 10 0).2
        "assign_event:42" "task-B" 10 [1, 2, 3]
      = (false, (redisSetNxEx emptyLock "assign_event:42" "task-A" 10 0).2) ∧
    (emptyLock "assign_event:42" = none ∨
      ∃ tok e, emptyLock "assign_event:42" = some (tok, e) ∧ e ≤ 0) :=
  C2_lock_mutual_exclusion emptyLock "assign_event:42" "task-A" "task-B" 10 0
    [1, 2, 3] rfl (by decide)

/-- C3: the release script is a no-op unless the stored owner token equals
the releaser's token, and it changes the key only when the releaser is the
current unexpired holder — one caller's scope exit never deletes a lock
owned by another. -/
theorem C3_release_only_by_holder (s : LockStore) (key tok : String) (now : Nat) :
    (∀ t e, s key = some (t, e) → t ≠ tok → releaseScript s key tok now = s) ∧
    ((releaseScript s key tok now) key ≠ s key →
      ∃ e, s key = some (tok, e) ∧ now < e) := by
  constructor
  · intro t e hk hne
    unfold releaseScript
    simp only [hk]
    rw [if_neg (fun h => hne h.2)]
  · intro hchange
    unfold releaseScript at hchange
    cases hk : s key with
    | none => simp only [hk, ne_eq] at hchange; exact (hchange trivial).elim
    | some p =>
      cases p with
      | mk t e =>
        simp only [hk] at hchange
        by_cases hcond : now < e ∧ t = tok
        · obtain ⟨hlt, rfl⟩ := hcond
          exact ⟨e, rfl, hlt⟩
        · rw [if_neg hcond] at hchange
          exact absurd hk hchange

/-- Witness for C3: a foreign token never releases a held lock. -/
theorem C3_release_only_by_holder_witness :
    releaseScript lockHeld "assign_event:42" "task-B" 7 = lockHeld :=
  (C3_release_only_by_holder lockHeld "assign_event:42" "task-B" 7).1
    "task-A" 50 rfl (by decide)

/-- Counterexample to C8 as stated: with a configured client whose store
is unreachable (`set` raises), the acquisition propagates the exception
instead of reporting `acquired = false` — the code's `try` block has no
`except` clause. -/
theorem C8_unreachable_store_counterexample : ¬ ClaimC8 := by
  intro h
  have h2 := h (fun _ => Except.error ()) 1 (fun _ => rfl)
  exact Except.noConfusion h2

/-- C8 amended: graceful degradation holds exactly when no store client is
configured (`self.redis` unset): acquisition then yields
`acquired = false` without raising.  When a client is configured and its
`set` call raises, the exception propagates out of the acquisition to the
caller. -/
theorem C8_degraded_acquisition_amended :
    (∀ maxAttempts, dlockAcquire none maxAttempts = Except.ok false) ∧
    (∀ (setnx : Nat → Except Unit Bool) (maxAttempts : Nat), 0 < maxAttempts →
      setnx 0 = Except.error () →
      dlockAcquire (some setnx) maxAttempts = Except.error ()) := by
  constructor
  · intro m; rfl
  · intro setnx m hm h0
    cases m with
    | zero => exact absurd hm (Nat.lt_irrefl 0)
    | succ m =>
      show dlockAcquire.go setnx 0 (m + 1) = Except.error ()
      unfold dlockAcquire.go
      rw [h0]

/-- Witness for C8 amended. -/
theorem C8_degraded_acquisition_amended_witness :
    dlockAcquire none 3 = Except.ok false ∧
    dlockAcquire (some fun _ => Except.error ()) 3 = Except.error () :=
  ⟨C8_degraded_acquisition_amended.1 3,
   C8_degraded_acquisition_amended.2 (fun _ => Except.error ()) 3 (by decide) rfl⟩

/-! ## Round-robin dispatch theorems (C5) -/

/-- Counterexample to C5 as stated: one eligible operator, two sequential
`assign()` calls with no claim resolved in between.  `⌊M/N⌋ = ⌈M/N⌉ = 2`,
but the operator is selected only once — the first selection's claim makes
them ineligible, and the second call assigns no one. -/
theorem C5_fairness_counterexample : ¬ ClaimC5 := by
  intro h
  have hfresh : ∀ a ∈ [100, 101], freshAccount a dispatchS0 := by
    intro a _; rfl
  have h2 := h dispatchS0 [100, 101] (by decide) hfresh (by decide)
    ⟨1, true, true, "user_standard"⟩ (by decide)
  rcases h2 with h2 | h2 <;> revert h2 <;> decide

/-- C5 amended: each `assign` call on a fresh account with a nonempty
eligible set atomically increments the shared counter and selects
`eligible[counter mod len(eligible)]` (counter order); and across `M`
sequential calls on fresh, distinct accounts with no claim resolved in
between, each operator is selected at most once — the selection's claim
removes the operator from every later eligible set, so the
`⌊M/N⌋`/`⌈M/N⌉` bound holds only while `M ≤ N`. -/
theorem C5_round_robin_amended :
    (∀ (account : Nat) (s : DispatchState), freshAccount account s →
      availableUsers s ≠ [] →
      (assignEvent account s).1 =
        ((availableUsers s).get? ((s.counter + 1) % (availableUsers s).length)).map (·.id) ∧
      (assignEvent account s).2.counter = s.counter + 1) ∧
    (∀ (accounts : List Nat) (s : DispatchState) (uid : Nat),
      accounts.Nodup → (∀ a ∈ accounts, freshAccount a s) →
      selCount uid (runAssigns accounts s).1 ≤ 1) := by
  constructor
  · intro account s hfresh hav
    have hf : s.claims.find? (fun c => c.1 = account) = none := hfresh
    have hr : (receivingUsers s).isEmpty = false := by
      rw [List.isEmpty_eq_false]
      intro hre
      apply hav
      unfold availableUsers
      rw [hre]
      rfl
    unfold assignEvent
    simp only [hf, hr, Bool.false_eq_true, if_false]
    cases heq : (receivingUsers s).filter (fun u => !(busyIds s).contains u.id) with
    | nil => exact absurd heq hav
    | cons u0 rest =>
      have hav2 : availableUsers s = u0 :: rest := heq
      constructor
      · rw [hav2, List.get?_eq_get (Nat.mod_lt _ (by simp))]
        rfl
      · rfl
  · intro accounts s uid hn hf
    exact selCount_le_one accounts s uid hn hf

/-- Witness for C5 amended: the single eligible operator of `dispatchS0`
is the one selected (`counter` 0 → index `1 mod 1 = 0`), and over the
two-call run they are selected at most once. -/
theorem C5_round_robin_amended_witness :
    (assignEvent 100 dispatchS0).1 = some 1 ∧
    selCount 1 (runAssigns [100, 101] dispatchS0).1 ≤ 1 := by
  constructor
  · have h := C5_round_robin_amended.1 100 dispatchS0 rfl (by decide)
    rw [h.1]
    decide
  · exact C5_round_robin_amended.2 [100, 101] dispatchS0 1 (by decide)
      (by intro a _; rfl)

/-! ## URL validation theorems (C4) -/

theorem hasChar_append (a b : String) (c : Char) :
    hasChar (a ++ b) c = (hasChar a c || hasChar b c) := by
  unfold hasChar
  rw [String.data_append]
  simp [List.contains]

/-- C4: `start` rejects shell metacharacters before the URL can reach the
FFmpeg command line.  Either the validator raises — and `start_stream`
returns False leaving the worker untouched, spawning nothing — or the
returned URL (rebuilt as `scheme://netloc path [? query]`) contains none
of `; | backtick $ ( ) < > \n \r`. -/
theorem C4_url_validation_safety (u : ParsedUrl) (w : Worker) (camera : Nat)
    (survive : Bool) (now : Nat) :
    (∀ e, validate_rtsp_url u = Except.error e →
      start_stream w camera u survive now = (false, w)) ∧
    (∀ res, validate_rtsp_url u = Except.ok res →
      ∀ c ∈ dangerousChars, hasChar res c = false) := by
  constructor
  · intro e he
    unfold start_stream
    rw [he]
  · intro res hres c hc
    have hq : ∀ x ∈ dangerousChars, hasChar "?" x = false := by decide
    unfold validate_rtsp_url at hres
    split at hres
    · exact absurd hres (by simp)
    · split at hres
      · exact absurd hres (by simp)
      · split at hres
        · exact absurd hres (by simp)
        · split at hres
          · split at hres
            · exact absurd hres (by simp)
            · rename_i hbase hnq hquery
              rw [Except.ok.injEq] at hres
              rw [← hres, hasChar_append, hasChar_append]
              rw [Bool.not_eq_true] at hbase hquery
              rw [List.any_eq_false] at hbase hquery
              rw [Bool.eq_false_iff.mpr (hbase c hc),
                  Bool.eq_false_iff.mpr (hquery c hc), hq c hc]
              rfl
          · rename_i hbase hqe
            rw [Except.ok.injEq] at hres
            rw [← hres]
            rw [Bool.not_eq_true] at hbase
            rw [List.any_eq_false] at hbase
            exact Bool.eq_false_iff.mpr (hbase c hc)

/-- Witness for C4: a URL with an embedded `;` is rejected and `start`
leaves the worker untouched; a clean URL passes and the returned string is
semicolon-free. -/
theorem C4_url_validation_safety_witness :
    start_stream workerC1 1 ⟨"rtsp", "h", "/bad;rm -rf /", ""⟩ true 5
      = (false, workerC1) ∧
    hasChar "rtsp://cam.example.com/stream1" ';' = false :=
  ⟨(C4_url_validation_safety ⟨"rtsp", "h", "/bad;rm -rf /", ""⟩ workerC1 1 true 5).1
      "Invalid character in URL" rfl,
   (C4_url_validation_safety urlOk workerC1 1 true 5).2
      "rtsp://cam.example.com/stream1" rfl ';' (by decide)⟩

/-! ## Stream supervisor theorems (C1) -/

theorem stop_stream_eq (w : Worker) (camera pid : Nat)
    (hhandle : alistLookup w.active_streams camera = some pid) :
    stop_stream w camera =
      (true, { w with procs := terminatePid w.procs pid,
                      active_streams := alistErase w.active_streams camera,
                      stream_last_update := alistErase w.stream_last_update camera }) := by
  unfold stop_stream
  rw [hhandle]

theorem procAlive_exists (w : Worker) (pid : Nat) (h : procAlive w pid = true) :
    ∃ p ∈ w.procs, p.pid = pid := by
  unfold procAlive at h
  cases hf : w.procs.find? (fun p => p.pid = pid) with
  | none => rw [hf] at h; exact absurd h (by simp)
  | some p =>
    have hm := List.mem_of_find?_eq_some hf
    have hp := List.find?_some hf
    exact ⟨p, hm, by simpa using hp⟩

/-- After terminating the old pid and appending a fresh process, the old
pid is no longer seen as running. -/
theorem findAlive_term_append (procs : List SProc) (pid np : Nat) (b : Bool)
    (hne : pid ≠ np) :
    ((List.find? (fun (p : SProc) => p.pid = pid)
        (terminatePid procs pid ++ [SProc.mk np b])).map
          (fun p => p.alive)).getD false = false := by
  induction procs with
  | nil =>
    simp [terminatePid, List.find?, Ne.symm hne]
  | cons p ps ih =>
    simp only [terminatePid, List.map_cons, List.cons_append, List.find?] at ih ⊢
    by_cases hp : p.pid = pid
    · simp [hp]
    · simp only [show decide (p.pid = pid) = false by simp [hp]]
      exact ih

/-- The freshly appended process is the one found under the new pid. -/
theorem findAlive_fresh_append (procs : List SProc) (pid np : Nat) (b : Bool)
    (hfr : ∀ p ∈ procs, p.pid ≠ np) :
    ((List.find? (fun (p : SProc) => p.pid = np)
        (terminatePid procs pid ++ [SProc.mk np b])).map
          (fun p => p.alive)).getD false = b := by
  induction procs with
  | nil => simp [terminatePid, List.find?]
  | cons p ps ih =>
    have hp : p.pid ≠ np := hfr p (List.mem_cons_self p ps)
    have ih2 := ih (fun q hq2 => hfr q (List.mem_cons_of_mem p hq2))
    simp only [terminatePid, List.map_cons, List.cons_append, List.find?] at ih2 ⊢
    simp only [show decide (p.pid = np) = false by simp [hp]]
    exact ih2

theorem alistLookup_erase_append {α : Type} (l : List (Nat × α)) (k : Nat) (v : α) :
    alistLookup (alistErase l k ++ [(k, v)]) k = some v := by
  induction l with
  | nil => simp [alistLookup, alistErase, List.find?]
  | cons e es ih =>
    by_cases he : e.1 = k
    · simpa [alistErase, he] using ih
    · simp only [alistErase, List.filter, alistLookup] at ih ⊢
      rw [show (!decide (e.1 = k)) = true by simp [he]]
      simp only [List.cons_append, List.find?]
      simp only [show decide (e.1 = k) = false by simp [he]]
      exact ih

/-- Counterexample to C1 as stated: `workerC1` already has a live encoder
(pid 7) for camera 1, yet `start_stream` is not a no-op — it stops the
existing process (line "Stop existing stream if running") and spawns a
fresh one (pid 8). -/
theorem C1_start_idempotent_counterexample : ¬ ClaimC1 := by
  intro h
  have h2 := h workerC1 1 urlOk true 5 7 rfl rfl
  exact absurd h2.2.1 (by decide)

/-- C1 amended: `start_stream` is a restart, not an idempotent no-op.
With a live handle present (and a URL that validates), it first stops the
existing encoder — afterwards the old pid is no longer running — spawns
exactly one fresh process, and on success the camera's handle refers to
the new pid, distinct from the old one.  (At most one live handle per
camera still holds: the old handle is removed before the new one is
recorded.) -/
theorem C1_start_restarts_existing
    (w : Worker) (camera : Nat) (url : ParsedUrl) (survive : Bool) (now pid : Nat)
    (hwf : ∀ p ∈ w.procs, p.pid < w.nextPid)
    (hhandle : alistLookup w.active_streams camera = some pid)
    (halive : procAlive w pid = true)
    (hok : exceptIsOk (validate_rtsp_url url) = true) :
    procAlive (start_stream w camera url survive now).2 pid = false ∧
    (start_stream w camera url survive now).2.procs.length = w.procs.length + 1 ∧
    ((start_stream w camera url survive now).1 = true →
      alistLookup (start_stream w camera url survive now).2.active_streams camera
        = some w.nextPid ∧ w.nextPid ≠ pid) := by
  obtain ⟨p0, hp0mem, hp0pid⟩ := procAlive_exists w pid halive
  have hpidlt : pid < w.nextPid := hp0pid ▸ hwf p0 hp0mem
  have hne : pid ≠ w.nextPid := Nat.ne_of_lt hpidlt
  have hfr : ∀ p ∈ w.procs, p.pid ≠ w.nextPid :=
    fun p hp => Nat.ne_of_lt (hwf p hp)
  cases hv : validate_rtsp_url url with
  | error e => rw [hv] at hok; exact absurd hok (by simp [exceptIsOk])
  | ok r =>
    unfold start_stream
    rw [hv, stop_stream_eq w camera pid hhandle]
    by_cases hs : survive
    · subst hs
      simp only [if_true, ite_true]
      refine ⟨?_, ?_, ?_⟩
      · exact findAlive_term_append w.procs pid w.nextPid true hne
      · simp [terminatePid]
      · intro _
        exact ⟨alistLookup_erase_append w.active_streams camera w.nextPid,
               Ne.symm hne⟩
    · simp only [hs, if_false, ite_false]
      refine ⟨?_, ?_, ?_⟩
      · exact findAlive_term_append w.procs pid w.nextPid false hne
      · simp [terminatePid]
      · intro hfalse
        exact absurd hfalse (by simp)

/-- Witness for C1 amended: starting camera 1 on `workerC1` kills pid 7,
spawns pid 8, and rebinds the handle. -/
theorem C1_start_restarts_existing_witness :
    procAlive (start_stream workerC1 1 urlOk true 5).2 7 = false ∧
    (start_stream workerC1 1 urlOk true 5).2.procs.length
      = workerC1.procs.length + 1 ∧
    ((start_stream workerC1 1 urlOk true 5).1 = true →
      alistLookup (start_stream workerC1 1 urlOk true 5).2.active_streams 1
        = some workerC1.nextPid ∧ workerC1.nextPid ≠ 7) :=
  C1_start_restarts_existing workerC1 1 urlOk true 5 7 (by decide) rfl rfl rfl

/-! ## Viewer reference-counting theorems (C6, C7, C9, C10) -/

/-- C6: with a working store, `should_stop_stream` returns true only when
the camera has zero viewers AND a stop deadline exists AND that deadline
has elapsed; and when the count is zero with no deadline yet, it creates
one at `now + 30` (TTL 60) and returns false. -/
theorem C6_should_stop_conditions (cl : RClient) (camera now : Nat)
    (hfail : cl.failAt = none) :
    ((should_stop_stream (some cl) camera now).1 = true →
      (cl.store camera).viewers.length = 0 ∧
      ∃ t ttl, (cl.store camera).stopAt = some (t, ttl) ∧ t ≤ now) ∧
    ((cl.store camera).viewers.length = 0 → (cl.store camera).stopAt = none →
      (should_stop_stream (some cl) camera now).1 = false ∧
      (should_stop_stream (some cl) camera now).2.map
        (fun c => (c.store camera).stopAt) = some (some (now + 30, 60))) := by
  constructor
  · intro htrue
    by_cases hv : (cl.store camera).viewers.length = 0
    · refine ⟨hv, ?_⟩
      cases hs : (cl.store camera).stopAt with
      | none =>
        exfalso
        revert htrue
        simp [should_stop_stream, should_stop_core, getCountC, hlenViewers, getStopAt,
              setexStopAt, delStopAt, rstep, updateCam, hfail, hv, hs, bind, Except.bind,
              pure, Except.pure]
      | some p =>
        obtain ⟨t1, ttl1⟩ := p
        by_cases ht : t1 ≤ now
        · exact ⟨t1, ttl1, rfl, ht⟩
        · exfalso
          revert htrue
          simp [should_stop_stream, should_stop_core, getCountC, hlenViewers, getStopAt,
                setexStopAt, delStopAt, rstep, updateCam, hfail, hv, hs, ht, bind,
                Except.bind, pure, Except.pure]
    · exfalso
      revert htrue
      have hv2 : (cl.store camera).viewers.length > 0 := Nat.pos_of_ne_zero hv
      simp [should_stop_stream, should_stop_core, getCountC, hlenViewers, getStopAt,
            setexStopAt, delStopAt, rstep, updateCam, hfail, hv2, bind, Except.bind,
            pure, Except.pure]
  · intro hv hs
    simp [should_stop_stream, should_stop_core, getCountC, hlenViewers, getStopAt,
          setexStopAt, delStopAt, rstep, updateCam, hfail, hv, hs, bind, Except.bind,
          pure, Except.pure]

/-- Witness for C6: a camera with no viewers and an elapsed deadline
satisfies the stop conditions; an empty store yields false and creates the
deadline `100 + 30` with TTL 60. -/
theorem C6_should_stop_conditions_witness :
    ((clientElapsed.store 1).viewers.length = 0 ∧
      ∃ t ttl, (clientElapsed.store 1).stopAt = some (t, ttl) ∧ t ≤ 100) ∧
    ((should_stop_stream (some clientEmpty) 1 100).1 = false ∧
      (should_stop_stream (some clientEmpty) 1 100).2.map
        (fun c => (c.store 1).stopAt) = some (some (100 + 30, 60))) :=
  ⟨(C6_should_stop_conditions clientElapsed 1 100 rfl).1 rfl,
   (C6_should_stop_conditions clientEmpty 1 100 rfl).2 rfl rfl⟩

/-- Counterexample to C7 as stated: `add_stream_viewer` does not clear the
pending stop deadline.  On `clientC7` (deadline `(50, 60)` pending for
camera 1), registering a viewer leaves the deadline in place. -/
theorem C7_addviewer_deadline_counterexample : ¬ ClaimC7 := by
  intro h
  obtain ⟨cl2, h1, _, _, _, h5⟩ := h clientC7 1 "v" 10 rfl
  have h6 : (add_stream_viewer (some clientC7) 1 "v" 10).2.map
      (fun c => (c.store 1).stopAt) = some none := by
    rw [h1]
    simp [h5]
  have h7 : (add_stream_viewer (some clientC7) 1 "v" 10).2.map
      (fun c => (c.store 1).stopAt) = some (some (50, 60)) := rfl
  rw [h6] at h7
  simp at h7

/-- C7 amended: `add_stream_viewer` registers/refreshes the viewer in the
hash, sets the 5-minute TTL on it, and returns the hash length; it leaves
any pending StreamStopDeadline untouched — the deadline is instead cleared
by the next `should_stop_stream` call, which deletes it upon observing a
positive count. -/
theorem C7_addviewer_amended (cl : RClient) (camera : Nat) (viewer : String)
    (now : Nat) (hfail : cl.failAt = none) :
    (add_stream_viewer (some cl) camera viewer now).1 =
      ((cl.store camera).viewers.filter (fun e => e.1 ≠ viewer)).length + 1 ∧
    (add_stream_viewer (some cl) camera viewer now).2.map
        (fun c => (c.store camera).viewers) =
      some ((cl.store camera).viewers.filter (fun e => e.1 ≠ viewer) ++ [(viewer, now)]) ∧
    (add_stream_viewer (some cl) camera viewer now).2.map
        (fun c => (c.store camera).viewersTtl) = some (some 300) ∧
    (add_stream_viewer (some cl) camera viewer now).2.map
        (fun c => (c.store camera).stopAt) = some ((cl.store camera).stopAt) ∧
    (∀ cl2, (add_stream_viewer (some cl) camera viewer now).2 = some cl2 →
      (cl2.store camera).viewers.length > 0 →
      (should_stop_stream (some cl2) camera now).1 = false ∧
      (should_stop_stream (some cl2) camera now).2.map
        (fun c => (c.store camera).stopAt) = some none) := by
  refine ⟨?_, ?_, ?_, ?_, ?_⟩
  · simp [add_stream_viewer, hsetViewer, expireViewers, hlenViewers, rstep,
          updateCam, hfail, bind, Except.bind, pure, Except.pure]
  · simp [add_stream_viewer, hsetViewer, expireViewers, hlenViewers, rstep,
          updateCam, hfail, bind, Except.bind, pure, Except.pure]
  · simp [add_stream_viewer, hsetViewer, expireViewers, hlenViewers, rstep,
          updateCam, hfail, bind, Except.bind, pure, Except.pure]
  · simp [add_stream_viewer, hsetViewer, expireViewers, hlenViewers, rstep,
          updateCam, hfail, bind, Except.bind, pure, Except.pure]
  · intro cl2 hcl2 hpos
    simp [add_stream_viewer, hsetViewer, expireViewers, hlenViewers, rstep,
          updateCam, hfail, bind, Except.bind, pure, Except.pure] at hcl2
    obtain rfl := hcl2
    simp only [updateCam] at hpos
    simp at hpos
    simp [should_stop_stream, should_stop_core, getCountC, hlenViewers, getStopAt,
          setexStopAt, delStopAt, rstep, updateCam, bind, Except.bind, pure,
          Except.pure, hpos]

/-- Witness for C7 amended at `clientC7`: the returned count is the
updated hash length and the pending deadline is untouched. -/
theorem C7_addviewer_amended_witness :
    (add_stream_viewer (some clientC7) 1 "v" 10).1 =
      ((clientC7.store 1).viewers.filter (fun e => e.1 ≠ "v")).length + 1 ∧
    (add_stream_viewer (some clientC7) 1 "v" 10).2.map
      (fun c => (c.store 1).stopAt) = some ((clientC7.store 1).stopAt) :=
  ⟨(C7_addviewer_amended clientC7 1 "v" 10 rfl).1,
   (C7_addviewer_amended clientC7 1 "v" 10 rfl).2.2.2.1⟩

/-- Counterexample to C9 as stated: with the store unavailable, two
`addViewer` calls for distinct viewers both report the constant 1, not a
per-worker in-memory count of 2. -/
theorem C9_inmemory_fallback_counterexample : ¬ ClaimC9 := by
  intro h
  have h2 := (h 0 "a" "b" 1 2 (by decide)).2
  exact absurd h2 (by decide)

/-- C9 amended: with the store unavailable the viewer functions return
fixed constants — `addViewer` always 1, `removeViewer` always 0, and the
count always 0 — with no in-memory per-worker tracking. -/
theorem C9_constant_fallback_amended :
    ∀ (camera : Nat) (viewer : String) (now : Nat),
      add_stream_viewer none camera viewer now = (1, none) ∧
      remove_stream_viewer none camera viewer now = (0, none) ∧
      get_stream_viewer_count none camera = (0, none) :=
  fun _ _ _ => ⟨rfl, rfl, rfl⟩

/-- Counterexample to C10 as stated: on `clientC10` only the viewer-count
read raises; `get_stream_viewer_count` swallows that error into count 0,
and the stale elapsed deadline then makes `should_stop_stream` return
true even though a store operation raised during the call. -/
theorem C10_partial_failure_counterexample : ¬ ClaimC10 := by
  intro h
  cases hsnd : (should_stop_stream (some clientC10) 1 100).2 with
  | none =>
    have hoc : (should_stop_stream (some clientC10) 1 100).2.map
        (fun c => c.opCount) = some 3 := rfl
    rw [hsnd] at hoc
    simp at hoc
  | some cl2 =>
    have hoc : (should_stop_stream (some clientC10) 1 100).2.map
        (fun c => c.opCount) = some 3 := rfl
    rw [hsnd] at hoc
    simp only [Option.map_some'] at hoc
    have hoc2 : cl2.opCount = 3 := Option.some_inj.mp hoc
    have h2 := h.2 clientC10 1 100 cl2 hsnd
      ⟨0, rfl, Nat.le_refl 0, by rw [hoc2]; decide⟩
    exact absurd h2 (by decide)

/-- C10 amended: `should_stop_stream` returns false when no store client
is configured, and whenever a raise reaches its own exception handler
(i.e. the `try` body evaluates to an error); and the health monitor stops
a stream only when `should_stop_stream` answered true — so those failure
modes never stop a running stream.  A raise inside the nested viewer-count
read, however, is swallowed as count 0 and is not covered (see the
counterexample). -/
theorem C10_should_stop_degraded_amended :
    (∀ camera now, should_stop_stream none camera now = (false, none)) ∧
    (∀ (cl : RClient) (camera now : Nat),
      exceptIsOk (should_stop_core cl camera now) = false →
      (should_stop_stream (some cl) camera now).1 = false) ∧
    (∀ (redis : Option RClient) (camera now : Nat),
      monitorStopsStream redis camera now = true →
      (should_stop_stream (get_stream_viewer_count redis camera).2 camera now).1 = true) := by
  refine ⟨fun _ _ => rfl, ?_, ?_⟩
  · intro cl camera now hnotok
    cases hc : should_stop_core cl camera now with
    | ok v => rw [hc] at hnotok; exact absurd hnotok (by simp [exceptIsOk])
    | error ecl =>
      show (match should_stop_core cl camera now with
            | Except.ok (b, cl2) => (b, some cl2)
            | Except.error cl2 => (false, some cl2) : Bool × Option RClient).1 = false
      rw [hc]
  · intro redis camera now hmon
    unfold monitorStopsStream at hmon
    exact ((Bool.and_eq_true _ _).mp hmon).1

/-- Witness for C10 amended: missing client, a raising `try` body, and a
monitor stop decision on an elapsed deadline. -/
theorem C10_should_stop_degraded_amended_witness :
    should_stop_stream none 1 100 = (false, none) ∧
    (should_stop_stream (some clientCoreErr) 1 100).1 = false ∧
    (should_stop_stream (get_stream_viewer_count (some clientElapsed) 1).2 1 100).1 = true :=
  ⟨C10_should_stop_degraded_amended.1 1 100,
   C10_should_stop_degraded_amended.2.1 clientCoreErr 1 100 rfl,
   C10_should_stop_degraded_amended.2.2 (some clientElapsed) 1 100 rfl⟩
